import Mathlib

/-! Verification of the ravenFS client-side transfer engine.

Shallow embedding of the two React pages of the repository:
* `src/unnamed/part_000` — the segmented ("DFS") page, whose `handleDownload`
  streams a download, tracks per-chunk progress, merges the received byte
  segments into one buffer and hands it to the browser save-as flow;
* `src/frontend/app/nodfs/page.tsx` — the whole-file page, whose
  `fetchFiles` / `handleUploadSubmit` / `handleDelete` are line-for-line the
  same state logic as the segmented page (different endpoints only).

Bytes are modelled as `Nat`, byte segments as `List Nat`.  JavaScript `number`
arithmetic in the progress formula is modelled with `ℚ` (the values involved
are ratios of byte counts scaled by 100; none of the claims depends on
floating-point rounding).  React state is a record `AppState`; a `useState`
setter becomes a functional update.  Network outcomes (HTTP success /
non-success status / rejected promise) are explicit inductive parameters, so
an event handler becomes a total function from the pre-state and the outcome
to the post-state.
-/

namespace RavenFS

/-- A file record as served by the backend (`interface FileRecord` in
`part_000`).  `total_chunks` is modelled as optional: the whole-file pipeline
serves records without it, and the spec declares its absence legal; in
JavaScript the absent field reads as `undefined`. -/
structure FileRecord where
  id : Nat
  filename : String
  file_hash : String
  file_size : Nat
  total_chunks : Option Nat
  created_at : String
deriving DecidableEq

/-- The React state of the DFS page (`useState` hooks, `part_000` lines
20-27).  `downloadProgress` entries are the displayed percentages. -/
structure AppState where
  fileList : List FileRecord
  selectedFile : Option String
  uploading : Bool
  downloadProgress : List ℚ
  downloadingFile : Option FileRecord
  downloadTime : Option Nat
  errorMessage : String
deriving DecidableEq

/-! Section: StreamReconstructor — merging received segments (`part_000` lines 121-126) -/

/-- Model of the accumulator `received += value.length` accumulated over the read loop
(`part_000` lines 95, 108). -/
def receivedCount (segs : List (List Nat)) : Nat :=
  segs.foldl (fun acc v => acc + v.length) 0

/-- Model of `mergedBuffer.set(chunk, offset)`: copy `seg` into `buf` starting at
`offset` (a `Uint8Array.set`; in every use below `off + seg.length ≤
buf.length`, so no out-of-range write occurs). -/
def setAt (buf seg : List Nat) (off : Nat) : List Nat :=
  buf.take off ++ seg ++ buf.drop (off + seg.length)

/-- The merge for-loop of `part_000` lines 122-126: walk the chunk list,
copying each chunk at the running offset. -/
def mergeLoop : List Nat → Nat → List (List Nat) → List Nat
  | buf, _, [] => buf
  | buf, off, c :: cs => mergeLoop (setAt buf c off) (off + c.length) cs

/-- Lines 121-126 of `part_000`: allocate `new Uint8Array(received)` (zero
filled) and run the merge loop over the arrived chunks. -/
def mergeChunks (chunks : List (List Nat)) : List Nat :=
  mergeLoop (List.replicate (receivedCount chunks) 0) 0 chunks

lemma receivedCount_aux (segs : List (List Nat)) :
    ∀ a : Nat, segs.foldl (fun acc v => acc + v.length) a
      = a + (segs.map List.length).sum := by
  induction segs with
  | nil => intro a; simp
  | cons c cs ih =>
    intro a
    simp only [List.foldl_cons, List.map_cons, List.sum_cons]
    rw [ih]
    ring

lemma receivedCount_eq_sum (segs : List (List Nat)) :
    receivedCount segs = (segs.map List.length).sum := by
  unfold receivedCount
  rw [receivedCount_aux]
  simp

lemma mergeLoop_eq (chunks : List (List Nat)) :
    ∀ (buf : List Nat) (off : Nat),
      buf.length = off + (chunks.map List.length).sum →
      mergeLoop buf off chunks = buf.take off ++ chunks.flatten := by
  induction chunks with
  | nil =>
    intro buf off hlen
    simp only [List.map_nil, List.sum_nil, Nat.add_zero] at hlen
    simp [mergeLoop, List.take_of_length_le (le_of_eq hlen), hlen]
  | cons c cs ih =>
    intro buf off hlen
    simp only [List.map_cons, List.sum_cons] at hlen
    have hoff : off + c.length ≤ buf.length := by omega
    have hsetlen : (setAt buf c off).length = (off + c.length) + (cs.map List.length).sum := by
      unfold setAt
      simp only [List.length_append, List.length_take, List.length_drop]
      omega
    have hrec := ih (setAt buf c off) (off + c.length) hsetlen
    have htake : (setAt buf c off).take (off + c.length) = buf.take off ++ c := by
      have h1 : (buf.take off ++ c).length = off + c.length := by
        simp only [List.length_append, List.length_take]
        omega
      unfold setAt
      exact List.take_left' h1
    simp only [mergeLoop]
    rw [hrec, htake, List.flatten_cons, List.append_assoc]

/-- C1. For every finite ordered sequence of byte segments received during
one download, the merged buffer produced at stream end is the concatenation of
the segments in arrival order, and its length equals the sum of all segment
lengths. -/
theorem merged_buffer_is_concat (segs : List (List Nat)) :
    mergeChunks segs = segs.flatten ∧
    (mergeChunks segs).length = (segs.map List.length).sum := by
  have h : mergeChunks segs = segs.flatten := by
    unfold mergeChunks
    rw [mergeLoop_eq segs (List.replicate (receivedCount segs) 0) 0
      (by simp [receivedCount_eq_sum])]
    simp
  exact ⟨h, by rw [h, List.length_flatten]⟩

/-! Section: ProgressEstimator (`part_000` lines 81-82 and 95-116) -/

/-- Model of `Number(response.headers.get("Content-Length"))`: an absent header gives
`Number(null) = 0`; an unparseable header gives `NaN`, which the `||` below
also replaces, so both are modelled by `none ↦ 0`. -/
def hintNumber : Option Nat → Nat
  | none => 0
  | some n => n

/-- Model of `Number(...) || 1` (`part_000` lines 96-97): JavaScript `||` replaces the
falsy values `0`/`NaN` by the 1-byte fallback. -/
def totalSizeOf (hint : Option Nat) : Nat :=
  if hintNumber hint = 0 then 1 else hintNumber hint

/-- Model of `Math.min(100, (received / totalSize) * 100)` (`part_000` line 110). -/
def overallProgress (received totalSize : Nat) : ℚ :=
  min 100 ((received : ℚ) / (totalSize : ℚ) * 100)

/-- JavaScript array index assignment `a[i] = v`: in-bounds writes replace,
out-of-bounds writes grow the array (the gap, never produced by the code
below, which always writes indices `0, 1, …` in order, is padded with 0). -/
def jsSet (l : List ℚ) (i : Nat) (v : ℚ) : List ℚ :=
  if i < l.length then l.set i v
  else l ++ List.replicate (i - l.length) 0 ++ [v]

/-- The update for-loop `for (let i = 0; i < totalChunks; i++)`
(`part_000` lines 113-115).  When `total_chunks` is absent, the JavaScript
comparison `i < undefined` is `false`, so the loop body never runs. -/
def fillLoop (base : List ℚ) (v : ℚ) : Option Nat → List ℚ
  | none => base
  | some n => (List.range n).foldl (fun acc i => jsSet acc i v) base

/-- One progress update (`part_000` lines 110-116): compute the overall
fraction, copy the *closure-captured* `downloadProgress` value (`stale`: the
value from the render in which the handler was created, i.e. the state at
click time — React state setters do not change the local `const`), and assign
`Math.min(100, overallProgress)` to every chunk slot. -/
def updateProgress (stale : List ℚ) (cn : Option Nat) (received totalSize : Nat) : List ℚ :=
  fillLoop stale (min 100 (overallProgress received totalSize)) cn

/-- Model of `new Array(totalChunks).fill(0)` (`part_000` line 82): for an absent
`total_chunks`, `new Array(undefined)` is the one-element array
`[undefined]`, and `.fill(0)` makes it `[0]`. -/
def initProgress : Option Nat → List ℚ
  | some n => List.replicate n 0
  | none => [0]

/-- The values passed to `setDownloadProgress` by the read loop
(`part_000` lines 103-118), one per received segment, at the running
cumulative byte count. -/
def progressUpdatesOf (stale : List ℚ) (cn : Option Nat) (totalSize : Nat)
    (segs : List (List Nat)) : List (List ℚ) :=
  (List.range segs.length).map fun k =>
    updateProgress stale cn (receivedCount (segs.take (k + 1))) totalSize

lemma fillLoop_some (base : List ℚ) (v : ℚ) (n : Nat) :
    fillLoop base v (some n) = (List.range n).foldl (fun acc i => jsSet acc i v) base := rfl

lemma fillLoop_nil (n : Nat) (v : ℚ) :
    fillLoop [] v (some n) = List.replicate n v := by
  induction n with
  | zero => rfl
  | succ m ih =>
    rw [fillLoop_some, List.range_succ, List.foldl_append, ← fillLoop_some, ih]
    simp only [List.foldl_cons, List.foldl_nil, jsSet]
    rw [if_neg (by simp)]
    simp [List.replicate_succ']

lemma min_hundred_idem (x : ℚ) : min 100 (min 100 x) = min 100 x := by
  rcases le_total 100 x with h | h
  · simp [min_eq_left h, min_eq_right, h]
  · simp [min_eq_right h]

/-- C3. For every received-byte count, declared total (≥ 1, as the
fallback of C6 guarantees for every total reaching the division) and chunk
count, a progress update from the idle (empty) captured progress value
produces an array of length `chunkCount` in which every entry equals
`min(100, receivedBytes/declaredTotal*100)`; in particular all entries carry
the same scalar value. -/
theorem update_fans_same_scalar (n received t : Nat) (ht : 1 ≤ t) :
    (updateProgress [] (some n) received t).length = n ∧
    ∀ x ∈ updateProgress [] (some n) received t,
      x = min 100 ((received : ℚ) / (t : ℚ) * 100) := by
  have hv : updateProgress [] (some n) received t
      = List.replicate n (min 100 ((received : ℚ) / (t : ℚ) * 100)) := by
    unfold updateProgress overallProgress
    rw [fillLoop_nil, min_hundred_idem]
  rw [hv]
  exact ⟨List.length_replicate _ _, fun x hx => List.eq_of_mem_replicate hx⟩

/-- Witness for `update_fans_same_scalar` at `n = 3`, `received = 5`,
`t = 10`. -/
theorem update_fans_same_scalar_witness :
    (updateProgress [] (some 3) 5 10).length = 3 ∧
    ∀ x ∈ updateProgress [] (some 3) 5 10,
      x = min 100 ((5 : ℚ) / (10 : ℚ) * 100) :=
  update_fans_same_scalar 3 5 10 (by decide)

/-- C4. For any sequence of non-negative byte-count deltas within one
download session (the segment lengths; byte counts are naturally
non-negative), the sequence of reported progress fractions — the overall
progress at the cumulative received count — is monotonically non-decreasing. -/
theorem progress_monotone (deltas : List (List Nat)) (t i j : Nat)
    (ht : 1 ≤ t) (hij : i ≤ j) :
    overallProgress (receivedCount (deltas.take i)) t ≤
      overallProgress (receivedCount (deltas.take j)) t := by
  have hsum : receivedCount (deltas.take i) ≤ receivedCount (deltas.take j) := by
    rw [receivedCount_eq_sum, receivedCount_eq_sum]
    have htt : (deltas.take j).take i = deltas.take i := by
      rw [List.take_take, min_eq_left hij]
    calc ((deltas.take i).map List.length).sum
        = (((deltas.take j).take i).map List.length).sum := by rw [htt]
      _ ≤ ((deltas.take j).map List.length).sum := by
          conv_rhs => rw [← List.take_append_drop i (deltas.take j)]
          rw [List.map_append, List.sum_append]
          exact Nat.le_add_right _ _
  unfold overallProgress
  have ht0 : (0 : ℚ) < (t : ℚ) := by exact_mod_cast ht
  have hsum' : (receivedCount (deltas.take i) : ℚ) ≤ (receivedCount (deltas.take j) : ℚ) := by
    exact_mod_cast hsum
  gcongr

/-- Witness for `progress_monotone` with deltas `[2], [3]`, total 10,
indices 1 ≤ 2. -/
theorem progress_monotone_witness :
    overallProgress (receivedCount ([[2], [3]].take 1)) 10 ≤
      overallProgress (receivedCount ([[2], [3]].take 2)) 10 :=
  progress_monotone [[2], [3]] 10 1 2 (by decide) (by decide)

/-- C6. When the transport length hint is absent or the declared total is
0, the declared total is substituted by a 1-byte sentinel (so the total used
in the progress division is always ≥ 1 and the computation never divides by
zero and never raises an error), and with the sentinel the fraction saturates
at 100% as soon as one byte has arrived. -/
theorem sentinel_total (hint : Option Nat) (r : Nat) (hr : 1 ≤ r) :
    totalSizeOf none = 1 ∧ totalSizeOf (some 0) = 1 ∧
    1 ≤ totalSizeOf hint ∧
    overallProgress r (totalSizeOf none) = 100 := by
  refine ⟨rfl, rfl, ?_, ?_⟩
  · unfold totalSizeOf
    split
    · exact le_refl 1
    · omega
  · have h1 : totalSizeOf none = 1 := rfl
    rw [h1]
    unfold overallProgress
    have h100 : (100 : ℚ) ≤ (r : ℚ) / ((1 : Nat) : ℚ) * 100 := by
      have hr' : (1 : ℚ) ≤ (r : ℚ) := by exact_mod_cast hr
      push_cast
      rw [div_one]
      nlinarith
    exact min_eq_left h100

/-- Witness for `sentinel_total` at `hint = some 7`, `r = 2`. -/
theorem sentinel_total_witness :
    totalSizeOf none = 1 ∧ totalSizeOf (some 0) = 1 ∧
    1 ≤ totalSizeOf (some 7) ∧
    overallProgress 2 (totalSizeOf none) = 100 :=
  sentinel_total (some 7) 2 (by decide)

/-! Section: Catalog — `fetchFiles` (`part_000` lines 30-40; identical in `page.tsx`
lines 25-35) -/

/-- Outcome of one `fetch` of the listing endpoint: a success response whose
JSON carries `files`, a non-success status (`!res.ok`, thrown and caught), or
a rejected promise (network failure, caught by the same handler). -/
inductive FetchOutcome where
  | ok (files : List FileRecord)
  | httpError
  | networkFailure
deriving DecidableEq

/-- Embedding of `fetchFiles`: on success replace the mirror wholesale with
the server list; on either failure only set the status message. -/
def fetchFiles (s : AppState) (o : FetchOutcome) : AppState :=
  match o with
  | .ok files => { s with fileList := files }
  | .httpError => { s with errorMessage := "Error fetching file list" }
  | .networkFailure => { s with errorMessage := "Error fetching file list" }

/-- C10. When a listing request fails (non-success response or network
failure), the previously held file-list mirror is left unchanged: the error
branch sets only the status message, so readers still see the last complete
snapshot. -/
theorem fetch_failure_keeps_mirror (s : AppState) :
    fetchFiles s .httpError = { s with errorMessage := "Error fetching file list" } ∧
    fetchFiles s .networkFailure = { s with errorMessage := "Error fetching file list" } ∧
    (fetchFiles s .httpError).fileList = s.fileList ∧
    (fetchFiles s .networkFailure).fileList = s.fileList :=
  ⟨rfl, rfl, rfl, rfl⟩

/-! Section: UploadSession — `handleUploadSubmit` (`part_000` lines 52-75; identical
in `page.tsx` lines 47-70) -/

/-- Outcome of the upload request once issued: success (carrying the outcome
of the follow-up `fetchFiles`), non-success status, or rejected promise. -/
inductive UploadOutcome where
  | ok (refresh : FetchOutcome)
  | httpError
  | networkFailure
deriving DecidableEq

/-- Embedding of `handleUploadSubmit`: early return when no file is selected; otherwise
set the `uploading` flag, issue the request, on success clear the selection
and refresh the catalog, on failure set the status message; the `finally`
clause clears `uploading` on every path.  The boolean reports whether a
request was issued. -/
def handleUploadSubmit (s : AppState) (o : UploadOutcome) : AppState × Bool :=
  match s.selectedFile with
  | none => (s, false)
  | some _ =>
    let s1 := { s with uploading := true, errorMessage := "" }
    match o with
    | .ok refresh =>
      let s2 := fetchFiles { s1 with selectedFile := none } refresh
      ({ s2 with uploading := false }, true)
    | .httpError => ({ s1 with errorMessage := "Upload failed", uploading := false }, true)
    | .networkFailure => ({ s1 with errorMessage := "Upload failed", uploading := false }, true)

/-- C8. Submitting an upload with no file selected issues no request and
changes no state (early return); when a file is selected, the submission
affordance (`uploading` flag) is re-enabled after the attempt on every
outcome, success or failure. -/
theorem upload_guard_and_cleanup (s : AppState) (o : UploadOutcome) (f : String) :
    handleUploadSubmit { s with selectedFile := none } o
      = ({ s with selectedFile := none }, false) ∧
    (handleUploadSubmit { s with selectedFile := some f } o).1.uploading = false := by
  refine ⟨rfl, ?_⟩
  cases o with
  | ok refresh => cases refresh <;> rfl
  | httpError => rfl
  | networkFailure => rfl

/-! Section: DeletionRequester — `handleDelete` (`part_000` lines 144-158; identical
in `page.tsx` lines 94-108) -/

/-- Outcome of the delete request: success (carrying the outcome of the
follow-up `fetchFiles`), non-success status, or rejected promise. -/
inductive DeleteOutcome where
  | ok (refresh : FetchOutcome)
  | httpError
  | networkFailure
deriving DecidableEq

/-- Embedding of `handleDelete`: clear the status message, issue the request; on success
run `fetchFiles`; on failure set the status message, touching nothing else.
The boolean reports whether the catalog refresh was triggered. -/
def handleDelete (s : AppState) (o : DeleteOutcome) : AppState × Bool :=
  let s1 := { s with errorMessage := "" }
  match o with
  | .ok refresh => (fetchFiles s1 refresh, true)
  | .httpError => ({ s1 with errorMessage := "Delete failed" }, false)
  | .networkFailure => ({ s1 with errorMessage := "Delete failed" }, false)

/-- C7. For every delete request: if the response is a success,
`fetchFiles` (the Catalog refresh) is triggered; if the response is
non-success or the request fails, the prior catalog contents are left
unchanged (no optimistic removal) and a delete failure is reported. -/
theorem delete_refresh_or_untouched (s : AppState) (refresh : FetchOutcome) :
    (handleDelete s (.ok refresh)).2 = true ∧
    (handleDelete s (.ok refresh)).1 = fetchFiles { s with errorMessage := "" } refresh ∧
    handleDelete s .httpError = ({ s with errorMessage := "Delete failed" }, false) ∧
    handleDelete s .networkFailure = ({ s with errorMessage := "Delete failed" }, false) ∧
    (handleDelete s .httpError).1.fileList = s.fileList ∧
    (handleDelete s .networkFailure).1.fileList = s.fileList :=
  ⟨rfl, rfl, rfl, rfl, rfl, rfl⟩

/-! Section: ArtifactSink (`part_000` lines 127-134; identical in `page.tsx` lines
78-87) -/

/-- The externally visible browser operations performed while saving a
finished buffer. -/
inductive SaveEffect where
  | createBlob (bytes : List Nat)
  | createObjectURL
  | setAnchorHref
  | setAnchorDownload (filename : String)
  | appendAnchor
  | clickAnchor
  | removeAnchor
  | revokeObjectURL
deriving DecidableEq

/-- The save sequence of `part_000` lines 127-134: `new Blob([mergedBuffer])`,
`URL.createObjectURL(blob)`, `a.href = url`, `a.download = filename`,
`document.body.appendChild(a)`, `a.click()`, `a.remove()` — and nothing
else. -/
def saveArtifact (bytes : List Nat) (filename : String) : List SaveEffect :=
  [ .createBlob bytes, .createObjectURL, .setAnchorHref,
    .setAnchorDownload filename, .appendAnchor, .clickAnchor, .removeAnchor ]

/-- C9, counterexample. The claim says the artifact sink, after
triggering the save-as flow, "releases the transient reference" — the object
URL obtained from `createObjectURL`.  The code never calls
`URL.revokeObjectURL`: at the concrete save of bytes `[1, 2, 3]` under name
`"file.bin"`, no release of the object-URL reference occurs. -/
theorem save_never_revokes_concrete :
    SaveEffect.revokeObjectURL ∉ saveArtifact [1, 2, 3] "file.bin" := by
  decide

/-- C9, amended. For every save of a finished buffer, the artifact sink
wraps the bytes as a binary object, obtains a transient object-URL reference
to it, triggers the platform save-as flow under the suggested filename, and
then removes the temporary anchor element; the object-URL reference itself is
never released (no `revokeObjectURL` occurs). -/
theorem save_sequence (bytes : List Nat) (filename : String) :
    saveArtifact bytes filename
      = [ .createBlob bytes, .createObjectURL, .setAnchorHref,
          .setAnchorDownload filename, .appendAnchor, .clickAnchor,
          .removeAnchor ] ∧
    SaveEffect.revokeObjectURL ∉ saveArtifact bytes filename := by
  refine ⟨rfl, ?_⟩
  simp [saveArtifact]

/-! Section: TransferSession — `handleDownload` (`part_000` lines 78-142) -/

/-- Outcome of one streamed download: the stream fails to open (rejected
fetch or missing body, line 91), the read loop throws after some segments
have arrived, or the stream ends normally.  `lengthHint` is the parsed
`Content-Length` header (`none` when absent or unparseable). -/
inductive StreamOutcome where
  | openFailure
  | midReadFailure (segs : List (List Nat)) (lengthHint : Option Nat)
  | success (segs : List (List Nat)) (lengthHint : Option Nat)

/-- What one `handleDownload` run produces: the final React state after the
`finally` clause, the sequence of values handed to `setDownloadProgress` by
the read loop, and the save-effect trace (`none` when the failure path was
taken before the save). -/
structure DownloadResult where
  state : AppState
  progressUpdates : List (List ℚ)
  saved : Option (List SaveEffect)

/-- Embedding of `handleDownload` (`part_000` lines 78-142).  `stale` is the closure
variable `downloadProgress` — the value rendered when the handler was invoked; the
setter calls inside the handler never change it.  On every path the
`finally` clause (lines 138-141) clears `downloadingFile` and
`downloadProgress`; the `catch` (lines 135-137) absorbs any thrown error and
reports "Download failed".  `elapsed` models `endTime - startTime`. -/
def handleDownload (s : AppState) (record : FileRecord) (outcome : StreamOutcome)
    (elapsed : Nat) : DownloadResult :=
  let stale := s.downloadProgress
  let s1 : AppState :=
    { s with downloadingFile := some record,
             downloadProgress := initProgress record.total_chunks,
             downloadTime := none, errorMessage := "" }
  match outcome with
  | .openFailure =>
    { state := { s1 with errorMessage := "Download failed",
                         downloadingFile := none, downloadProgress := [] },
      progressUpdates := [], saved := none }
  | .midReadFailure segs hint =>
    { state := { s1 with errorMessage := "Download failed",
                         downloadingFile := none, downloadProgress := [] },
      progressUpdates := progressUpdatesOf stale record.total_chunks (totalSizeOf hint) segs,
      saved := none }
  | .success segs hint =>
    { state := { s1 with downloadTime := some elapsed,
                         downloadingFile := none, downloadProgress := [] },
      progressUpdates := progressUpdatesOf stale record.total_chunks (totalSizeOf hint) segs,
      saved := some (saveArtifact (mergeChunks segs) record.filename) }

/-- C5. After every download attempt — successful completion, a failure
to open the stream, or a read that throws mid-stream — the active record and
the progress array are cleared, leaving the session idle (no error escapes:
`handleDownload` is a total function into a final state); on either failure
a transfer-failure message is reported. -/
theorem download_always_cleans_up (s : AppState) (record : FileRecord)
    (segs : List (List Nat)) (hint : Option Nat) (elapsed : Nat) :
    ((handleDownload s record .openFailure elapsed).state.downloadingFile = none ∧
     (handleDownload s record .openFailure elapsed).state.downloadProgress = [] ∧
     (handleDownload s record .openFailure elapsed).state.errorMessage = "Download failed") ∧
    ((handleDownload s record (.midReadFailure segs hint) elapsed).state.downloadingFile = none ∧
     (handleDownload s record (.midReadFailure segs hint) elapsed).state.downloadProgress = [] ∧
     (handleDownload s record (.midReadFailure segs hint) elapsed).state.errorMessage
       = "Download failed") ∧
    ((handleDownload s record (.success segs hint) elapsed).state.downloadingFile = none ∧
     (handleDownload s record (.success segs hint) elapsed).state.downloadProgress = []) :=
  ⟨⟨rfl, rfl, rfl⟩, ⟨rfl, rfl, rfl⟩, rfl, rfl⟩

/-! Section: C2 — the final progress array of a successful download -/

lemma totalSizeOf_pos (hint : Option Nat) : 1 ≤ totalSizeOf hint := by
  unfold totalSizeOf
  split
  · exact le_refl 1
  · omega

lemma updateProgress_full (n R : Nat) (hR : 1 ≤ R) :
    updateProgress [] (some n) R R = List.replicate n 100 := by
  unfold updateProgress overallProgress
  rw [fillLoop_nil]
  have hR0 : ((R : Nat) : ℚ) ≠ 0 := by
    exact_mod_cast Nat.one_le_iff_ne_zero.mp hR
  rw [div_self hR0, one_mul]
  norm_num

lemma getLast?_map_range {α : Type} (f : Nat → α) (m : Nat) (hm : 1 ≤ m) :
    ((List.range m).map f).getLast? = some (f (m - 1)) := by
  obtain ⟨k, rfl⟩ : ∃ k, m = k + 1 := ⟨m - 1, by omega⟩
  rw [List.range_succ, List.map_append]
  simp [List.getLast?_concat]

lemma map_range_const {α : Type} (c : α) (m : Nat) :
    (List.range m).map (fun _ => c) = List.replicate m c := by
  induction m with
  | zero => rfl
  | succ k ih =>
    rw [List.range_succ, List.map_append, ih]
    simp [List.replicate_succ']

/-- C2, counterexample. The claim says a record with `chunkCount` absent
yields the 1-element progress array `[100]`.  On the code, with the idle
state and a record lacking `total_chunks`, the update loop compares
`i < undefined`, which is `false`, so no entry is ever written: the single
progress update of a completed 3-byte download (accurate length hint) is the
unchanged captured value `[]`, not `[100]`. -/
theorem chunkless_download_not_100 :
    (handleDownload
        { fileList := [], selectedFile := none, uploading := false,
          downloadProgress := [], downloadingFile := none,
          downloadTime := none, errorMessage := "" }
        { id := 1, filename := "a.bin", file_hash := "h", file_size := 3,
          total_chunks := none, created_at := "2025-01-01" }
        (.success [[1, 2, 3]] (some 3)) 0).progressUpdates
      = [([] : List ℚ)] ∧ ([] : List ℚ) ≠ [100] :=
  ⟨rfl, by decide⟩

/-- C2, amended. For every record with declared `chunkCount = n ≥ 1`,
starting from the idle (empty) progress value, a successful download whose
length hint matches the received byte count yields a final progress update of
length `n` with every entry equal to 100 (so `chunkCount = 4` yields a
4-element all-100 array).  A record with `chunkCount` absent initializes the
display to the 1-element array `[0]`, but every progress update of the read
loop leaves the captured idle value unchanged, producing `[]` — not the
1-element array `[100]` the original claim states. -/
theorem chunk_progress_final (s : AppState) (record : FileRecord)
    (segs : List (List Nat)) (hint : Option Nat) (elapsed n : Nat)
    (hidle : s.downloadProgress = []) :
    (record.total_chunks = some n → 1 ≤ n → segs ≠ [] →
       totalSizeOf hint = receivedCount segs →
       (handleDownload s record (.success segs hint) elapsed).progressUpdates.getLast?
         = some (List.replicate n 100)) ∧
    (record.total_chunks = none →
       initProgress record.total_chunks = [0] ∧
       (handleDownload s record (.success segs hint) elapsed).progressUpdates
         = List.replicate segs.length []) := by
  have hpu : (handleDownload s record (.success segs hint) elapsed).progressUpdates
      = progressUpdatesOf s.downloadProgress record.total_chunks (totalSizeOf hint) segs := rfl
  constructor
  · intro hcn hn hne htot
    rw [hpu, hidle, hcn]
    unfold progressUpdatesOf
    have hlen : 1 ≤ segs.length := List.length_pos.mpr hne
    rw [getLast?_map_range _ _ hlen]
    have hidx : segs.length - 1 + 1 = segs.length := by omega
    rw [hidx, List.take_length, htot]
    rw [updateProgress_full n _ (htot ▸ totalSizeOf_pos hint)]
  · intro hcn
    refine ⟨by rw [hcn]; rfl, ?_⟩
    rw [hpu, hidle, hcn]
    unfold progressUpdatesOf
    have hfun : (fun k => updateProgress [] none
        (receivedCount (segs.take (k + 1))) (totalSizeOf hint)) = fun _ => ([] : List ℚ) :=
      funext fun _ => rfl
    rw [hfun, map_range_const]

/-- Witness for `chunk_progress_final`: a record with `total_chunks = 4`,
segments `[9, 9]` and `[9]`, and length hint 3 (matching the 3 received
bytes), yields a final 4-element all-100 progress update. -/
theorem chunk_progress_final_witness :
    (handleDownload
        { fileList := [], selectedFile := none, uploading := false,
          downloadProgress := [], downloadingFile := none,
          downloadTime := none, errorMessage := "" }
        { id := 2, filename := "b.bin", file_hash := "h2", file_size := 3,
          total_chunks := some 4, created_at := "2025-01-02" }
        (.success [[9, 9], [9]] (some 3)) 0).progressUpdates.getLast?
      = some (List.replicate 4 100) :=
  (chunk_progress_final
    { fileList := [], selectedFile := none, uploading := false,
      downloadProgress := [], downloadingFile := none,
      downloadTime := none, errorMessage := "" }
    { id := 2, filename := "b.bin", file_hash := "h2", file_size := 3,
      total_chunks := some 4, created_at := "2025-01-02" }
    [[9, 9], [9]] (some 3) 0 4 rfl).1 rfl (by decide) (by decide) rfl

end RavenFS
